import Mathlib

/-!
Verification of the natural-language specification of the
`ocx-schema-parser` repository against its source code, through a shallow
embedding in Lean 4.

The embedding translates the Python source (`ocx_schema_parser/xelement.py`,
`helpers.py`, `parser.py`, `ocxparser.py`, `elements.py`, `transformer.py`)
into executable Lean definitions:

* an XML element node (the part of an `lxml.etree.Element` the code reads)
  becomes `Ocx.XmlNode`: local name, namespace URI, attribute map,
  first text chunk, ordered list of children;
* DOM ancestor walks (`iterancestors`) become an explicit ancestor list
  argument, nearest ancestor first;
* Python dictionaries become association lists (`alist_lookup`,
  `alist_insert` model `d[k]` and `d[k] = v` with insertion order kept);
* code that would raise an exception (for example calling
  `LxmlElement.get_name(None)` after a failed lookup) returns `Option`,
  with `none` modelling the raise.

Names follow the source where Lean's lexical rules allow; renamings are
recorded in the doc comment of each definition.
-/

namespace Ocx

/-- An XML element node as read by the parser: local name, namespace URI,
attribute list (document order, first binding wins on lookup), the first
text chunk yielded by `ElementTextIterator`, and the ordered child nodes. -/
inductive XmlNode : Type where
  | mk : String → String → List (String × String) → String → List XmlNode → XmlNode

/-- Local name of the node (`LxmlElement.get_localname`). -/
def XmlNode.localname : XmlNode → String
  | .mk l _ _ _ _ => l

/-- Namespace URI of the node (`LxmlElement.get_namespace`). -/
def XmlNode.nsuri : XmlNode → String
  | .mk _ n _ _ _ => n

/-- Attribute list of the node (`element.attrib`). -/
def XmlNode.attrs : XmlNode → List (String × String)
  | .mk _ _ a _ _ => a

/-- First text chunk of the node's subtree (what `ElementTextIterator`
yields first in `LxmlElement.get_element_text`, before the `break`). -/
def XmlNode.text : XmlNode → String
  | .mk _ _ _ t _ => t

/-- Ordered child nodes. -/
def XmlNode.children : XmlNode → List XmlNode
  | .mk _ _ _ _ c => c

/-- Attribute lookup, `element.get(key)`: first binding of the key. -/
def getAttr (e : XmlNode) (key : String) : Option String :=
  match e.attrs.find? (fun kv => kv.1 == key) with
  | some kv => some kv.2
  | none => none

mutual
/-- All proper descendants of a node in document order (what the XPath
`.//` axis used by `LxmlElement.find_all_children_with_name` visits). -/
def descendants : XmlNode → List XmlNode
  | .mk _ _ _ _ cs => descendantsList cs

/-- Document-order descendants of a list of sibling subtrees. -/
def descendantsList : List XmlNode → List XmlNode
  | [] => []
  | c :: rest => c :: (descendants c ++ descendantsList rest)
end

/-- `LxmlElement.find_all_children_with_name` with the default wildcard
namespace: all descendants whose local name is `child_name`. -/
def find_all_children_with_name (element : XmlNode) (child_name : String) :
    List XmlNode :=
  (descendants element).filter (fun c => c.localname == child_name)

/-- `LxmlElement.find_all_children_with_name_and_attribute` with the default
wildcard namespace: all descendants with local name `child_name` that carry
the attribute `attrib_name`. -/
def find_all_children_with_name_and_attribute (element : XmlNode)
    (child_name attrib_name : String) : List XmlNode :=
  (descendants element).filter
    (fun c => c.localname == child_name && (getAttr c attrib_name).isSome)

/-- `LxmlElement.iter(element, "{*}tag")`: depth-first pre-order iteration
over the subtree including the node itself, filtered by local name. -/
def iterTag (element : XmlNode) (tag : String) : List XmlNode :=
  (element :: descendants element).filter (fun c => c.localname == tag)

/-- Split a character list at its first colon, as Python's
`element.find(":")` plus slicing does; `none` when there is no colon. -/
def breakAtColon : List Char → Option (List Char × List Char)
  | [] => none
  | c :: rest =>
    if c = ':' then some ([], rest)
    else
      match breakAtColon rest with
      | some (pre, post) => some (c :: pre, post)
      | none => none

/-- Text after the first `:` of a qualified name
(`LxmlElement.strip_namespace_prefix`; renamed for Lean's lexical rules).
Returns the input unchanged when it has no colon. -/
def qnameLocal (element : String) : String :=
  match breakAtColon element.data with
  | some (_, post) => String.mk post
  | none => element

/-- Text before the first `:` of a qualified name
(`LxmlElement.namespace_prefix`; renamed for Lean's lexical rules).
`none` when the input has no colon. -/
def qnamePre (element : String) : Option String :=
  match breakAtColon element.data with
  | some (pre, _) => some (String.mk pre)
  | none => none

/-- `SchemaHelper.unique_tag`: the unique global tag
`\x7bnamespace\x7dname`. -/
def unique_tag (name : String) (namespace_uri : String) : String :=
  "\x7b" ++ namespace_uri ++ "\x7d" ++ name

/-- `LxmlElement.get_name`: the `name` attribute, falling back to the `ref`
attribute stripped of its namespace prefix. `none` models the
`AttributeError` Python raises when both attributes are absent. -/
def get_name (element : XmlNode) : Option String :=
  match getAttr element "name" with
  | some n => some n
  | none =>
    match getAttr element "ref" with
    | some r => some (qnameLocal r)
    | none => none

/-- `LxmlElement.get_reference`: the `ref` attribute, if any. -/
def get_reference (element : XmlNode) : Option String :=
  getAttr element "ref"

/-- `LxmlElement.get_use`: `opt.` when no `use` attribute, `req.` for
`use="required"`, otherwise the raw `use` value. -/
def get_use (element : XmlNode) : String :=
  match getAttr element "use" with
  | none => "opt."
  | some use => if use = "required" then "req." else use

/-- `LxmlElement.get_element_text`: the first text chunk with newline, tab
and carriage-return characters removed (the `re.sub("[\n\t\r]", "", ...)`). -/
def get_element_text (element : XmlNode) : String :=
  String.mk (element.text.data.filter
    (fun c => !(c == Char.ofNat 10 || c == Char.ofNat 9 || c == Char.ofNat 13)))

/-- Python's `int(...)` on the decimal strings the schemas use for
`minOccurs`; total in Lean, defaulting to 0 where Python would raise on a
non-numeric string (no modelled claim exercises that case). -/
def pyInt (s : String) : Int :=
  let l := s.data
  let core := match l with
    | '-' :: rest => rest
    | _ => l
  if core ≠ [] ∧ core.all (fun c => c.isDigit) then
    let n : Nat := core.foldl (fun acc c => acc * 10 + (c.toNat - 48)) 0
    match l with
    | '-' :: _ => -(n : Int)
    | _ => (n : Int)
  else 0

/-- The upper cardinality bound as the Python code holds it: either the
untouched default `1 : int` or the raw string of a `maxOccurs` attribute. -/
inductive Bound : Type where
  | ofInt : Int → Bound
  | ofStr : String → Bound
deriving DecidableEq

/-- Whether a node is one of the `xs:sequence` / `xs:choice` wrappers that
`iterancestors("{*}sequence", "{*}choice")` stops at. -/
def isWrapper (a : XmlNode) : Bool :=
  a.localname = "sequence" || a.localname = "choice"

/-- `LxmlElement.cardinality`. `ancestors` is the node's DOM ancestor
chain, nearest first (the order `iterancestors` yields). Element-level
bounds: `minOccurs` if present, else 1 without a `use` attribute, 1 for
`use` equal to `req` or `required`, 0 for any other `use`; `maxOccurs` if
present, else the integer 1. The first `xs:sequence`/`xs:choice` ancestor
then overrides whichever of the two bounds it carries itself. -/
def cardinality (element : XmlNode) (ancestors : List XmlNode) :
    Int × Bound :=
  let lower : Int :=
    match getAttr element "minOccurs" with
    | some m => pyInt m
    | none =>
      match getAttr element "use" with
      | some use => if use = "req" ∨ use = "required" then 1 else 0
      | none => 1
  let upper : Bound :=
    match getAttr element "maxOccurs" with
    | some m => .ofStr m
    | none => .ofInt 1
  match ancestors.find? isWrapper with
  | some item =>
    (match getAttr item "minOccurs" with
     | some m => pyInt m
     | none => lower,
     match getAttr item "maxOccurs" with
     | some m => .ofStr m
     | none => upper)
  | none => (lower, upper)

/-- `LxmlElement.is_choice`: true iff the first `xs:sequence`/`xs:choice`
DOM ancestor is a `choice`; false when there is no such ancestor. -/
def is_choice (ancestors : List XmlNode) : Bool :=
  match ancestors.find? isWrapper with
  | some item => item.localname = "choice"
  | none => false

/-- String shown for a bound in `LxmlElement.cardinality_string`:
`unbounded` is replaced by the infinity sign. -/
def boundStr : Bound → String
  | .ofInt n => toString n
  | .ofStr s => if s = "unbounded" then "∞" else s

/-- `LxmlElement.cardinality_string`. -/
def cardinality_string (element : XmlNode) (ancestors : List XmlNode) :
    String :=
  let p := cardinality element ancestors
  "[" ++ toString p.1 ++ ", " ++ boundStr p.2 ++ "]"

/-- Rendering of an optional string inside a Python f-string: `None` for
a missing value. -/
def optStr : Option String → String
  | some s => s
  | none => "None"

/-- `SchemaHelper.get_type`. The Python body assigns `schema_type` once per
matching source, without `elif` or early return, so each later match
overwrites the earlier ones; the shadowing `let` chain below reproduces
those sequential assignments.  Sources in assignment order: the `type`
attribute, the `base` attribute, the `ref` attribute, the `base` of the
first `extension` then of the first `restriction` descendant when a
`complexContent` descendant exists, the same pair under the first
`simpleType` descendant, the synthesized string for each `list` in the
subtree (a `for` loop, so the last one wins), and the synthesized string
for each `restriction` in the subtree (again last one wins). -/
def get_type (element : XmlNode) : Option String :=
  let schema_type : Option String := none
  let schema_type := match getAttr element "type" with
    | some t => some t
    | none => schema_type
  let schema_type := match getAttr element "base" with
    | some t => some t
    | none => schema_type
  let schema_type := match getAttr element "ref" with
    | some t => some t
    | none => schema_type
  let schema_type :=
    if (find_all_children_with_name element "complexContent").length > 0 then
      let schema_type :=
        match (find_all_children_with_name_and_attribute element
            "extension" "base").head? with
        | some b => getAttr b "base"
        | none => schema_type
      match (find_all_children_with_name_and_attribute element
          "restriction" "base").head? with
      | some b => getAttr b "base"
      | none => schema_type
    else schema_type
  let schema_type :=
    match (find_all_children_with_name element "simpleType").head? with
    | some simple_type =>
      let schema_type :=
        match (find_all_children_with_name_and_attribute simple_type
            "extension" "base").head? with
        | some b => getAttr b "base"
        | none => schema_type
      match (find_all_children_with_name_and_attribute simple_type
          "restriction" "base").head? with
      | some b => getAttr b "base"
      | none => schema_type
    | none => schema_type
  let schema_type :=
    match (iterTag element "list").getLast? with
    | some item => some ("List of type " ++ optStr (getAttr item "itemType"))
    | none => schema_type
  let schema_type :=
    match (iterTag element "restriction").getLast? with
    | some item =>
      some ("Restriction of type " ++ optStr (getAttr item "base"))
    | none => schema_type
  schema_type

/-- One overwrite step of `SchemaHelper.get_type`: a matching source
replaces the value accumulated so far, a non-matching one leaves it. -/
def overrideWith (acc : Option String) (src : Option String) :
    Option String :=
  match src with
  | some v => some v
  | none => acc

/-- Source 1 of `get_type` (helpers.py:53-54): the `type` attribute. -/
def src_type (element : XmlNode) : Option String :=
  getAttr element "type"

/-- Source 2 of `get_type` (helpers.py:55-56): the `base` attribute. -/
def src_base (element : XmlNode) : Option String :=
  getAttr element "base"

/-- Source 3 of `get_type` (helpers.py:57-58): the `ref` attribute. -/
def src_ref (element : XmlNode) : Option String :=
  getAttr element "ref"

/-- Source 4 of `get_type` (helpers.py:59-73), its net contribution
considered alone: when a `complexContent` descendant exists, the `base`
of the first `restriction` descendant if any (the code assigns the
`extension` base first and the `restriction` base after it, so within
the block the restriction wins), else the `base` of the first
`extension` descendant; `none` when the block does not assign. -/
def src_complexContent (element : XmlNode) : Option String :=
  if (find_all_children_with_name element "complexContent").length > 0 then
    match (find_all_children_with_name_and_attribute element
        "restriction" "base").head? with
    | some b => getAttr b "base"
    | none =>
      match (find_all_children_with_name_and_attribute element
          "extension" "base").head? with
      | some b => getAttr b "base"
      | none => none
  else none

/-- Source 5 of `get_type` (helpers.py:74-89), its net contribution
considered alone: the same extension-then-restriction pair searched
under the first `simpleType` descendant. -/
def src_simpleType (element : XmlNode) : Option String :=
  match (find_all_children_with_name element "simpleType").head? with
  | some simple_type =>
    match (find_all_children_with_name_and_attribute simple_type
        "restriction" "base").head? with
    | some b => getAttr b "base"
    | none =>
      match (find_all_children_with_name_and_attribute simple_type
          "extension" "base").head? with
      | some b => getAttr b "base"
      | none => none
  | none => none

/-- Source 6 of `get_type` (helpers.py:90-93): the synthesized marker of
the last `list` in the subtree, if any. -/
def src_list (element : XmlNode) : Option String :=
  match (iterTag element "list").getLast? with
  | some item => some ("List of type " ++ optStr (getAttr item "itemType"))
  | none => none

/-- Source 7 of `get_type` (helpers.py:94-97): the synthesized marker of
the last `restriction` in the subtree, if any. -/
def src_restriction (element : XmlNode) : Option String :=
  match (iterTag element "restriction").getLast? with
  | some item =>
    some ("Restriction of type " ++ optStr (getAttr item "base"))
  | none => none

/-- Python dictionary read `d.get(k)` / `k in d` over an association list
that keeps dictionary insertion order. -/
def alist_lookup {α : Type} : List (String × α) → String → Option α
  | [], _ => none
  | (k, v) :: rest, key => if key = k then some v else alist_lookup rest key

/-- Python dictionary write `d[k] = v`: an existing key keeps its position
and gets the new value, a new key is appended. -/
def alist_insert {α : Type} : List (String × α) → String → α →
    List (String × α)
  | [], key, val => [(key, val)]
  | (k, v) :: rest, key, val =>
    if k = key then (k, val) :: rest else (k, v) :: alist_insert rest key val

/-- The parser state the modelled operations read: the Namespace Registry
(`_schema_namespaces`, prefix to URI), the Raw Element Index
(`_all_schema_elements`, unique tag to node) and the keys of the Builtin
Type Table (`_builtin_xs_types`; its values are canonical reference URLs
that the code only prints to the log). -/
structure SchemaState : Type where
  schema_namespaces : List (String × String)
  all_schema_elements : List (String × XmlNode)
  builtin_xs_types : List String

/-- `OcxSchema._get_element` / `OcxParser.get_element_from_tag`: `none`
for a builtin type and for a tag missing from the Raw Element Index. -/
def _get_element (st : SchemaState) (tag : String) : Option XmlNode :=
  if tag ∈ st.builtin_xs_types then none
  else alist_lookup st.all_schema_elements tag

/-- `OcxSchema._get_element_from_type` / `OcxParser.get_element_from_type`:
split the reference into prefix and local name, resolve the prefix through
the Namespace Registry (`none` for a missing or unregistered prefix), then
report builtin types and tags missing from the Raw Element Index as `none`;
otherwise return the tag together with the indexed node.  The Python
`(None, None)` tuple is modelled as `none`. -/
def _get_element_from_type (st : SchemaState) (schema_type : String) :
    Option (String × XmlNode) :=
  let name := qnameLocal schema_type
  match qnamePre schema_type with
  | none => none
  | some pre =>
    match alist_lookup st.schema_namespaces pre with
    | none => none
    | some namespace_uri =>
      let tag := unique_tag name namespace_uri
      if tag ∈ st.builtin_xs_types then none
      else
        match alist_lookup st.all_schema_elements tag with
        | none => none
        | some e => some (tag, e)

/-- `OcxSchema._get_prefix_from_namespace` (parser.py): scans the whole
registry and keeps the prefix of the last entry whose URI matches,
defaulting to the string `None`. -/
def _get_prefix_from_namespace (namespaces : List (String × String))
    (namespace_uri : String) : String :=
  namespaces.foldl
    (fun acc kv => if kv.2 = namespace_uri then kv.1 else acc) "None"

/-- `OcxParser.get_prefix_from_namespace` (ocxparser.py, also used by the
transformer): the prefix of the first entry whose URI matches, defaulting
to the empty string. -/
def get_prefix_from_namespace (namespaces : List (String × String))
    (namespace_uri : String) : String :=
  match namespaces.find? (fun kv => kv.2 == namespace_uri) with
  | some kv => kv.1
  | none => ""

/-- `OcxSchema._add_schema_element` / `OcxParser._add_schema_element`:
the plain dictionary write `self._all_schema_elements[tag] = element`. -/
def _add_schema_element (table : List (String × XmlNode)) (tag : String)
    (element : XmlNode) : List (String × XmlNode) :=
  alist_insert table tag element

/-- A sequence of `_add_schema_element` calls applied to the Raw Element
Index in order. -/
def register_schema_elements (table : List (String × XmlNode)) :
    List (String × XmlNode) → List (String × XmlNode)
  | [] => table
  | (tag, e) :: rest =>
    register_schema_elements (_add_schema_element table tag e) rest

/-- One step of `OcxSchema._find_parents` (parser.py lines 470-478): look
the child tag up in the Raw Element Index, take its type with
`SchemaHelper.get_type`, and resolve that type to `(parent tag, parent
node)`; `none` at any step ends the walk. -/
def resolveParent (st : SchemaState) (child_tag : String) :
    Option (String × XmlNode) :=
  match _get_element st child_tag with
  | none => none
  | some e =>
    match get_type e with
    | none => none
    | some schema_type => _get_element_from_type st schema_type

/-- `OcxSchema._find_parents`, fuel-indexed: the recursion adds each
resolved parent with `OcxGlobalElement.put_parent` (a dictionary write,
here `alist_insert`, so insertion order is nearest parent first) and
recurses on the parent tag.  The `fuel` argument bounds the recursion
depth; the Python function has no such bound and would loop forever on a
cyclic type chain, so fuel-independence of the result expresses its
termination.  The assertion bookkeeping (`add_assertion`) touches a
separate list and is not modelled. -/
def _find_parents (st : SchemaState) :
    Nat → String → List (String × XmlNode) → List (String × XmlNode)
  | 0, _, parents => parents
  | fuel + 1, child_tag, parents =>
    match resolveParent st child_tag with
    | none => parents
    | some (parent_tag, parent_element) =>
      _find_parents st fuel parent_tag
        (alist_insert parents parent_tag parent_element)

/-- The fields of `OcxChildElement` (elements.py) that
`OcxSchema._process_children` fills in. -/
structure ChildRecord : Type where
  tag : String
  name : Option String
  schema_type : Option String
  description : String
  cardinality : Int × Bound
  is_choice : Bool
deriving DecidableEq

/-- `OcxSchema._process_child` (parser.py): build the `OcxChildElement`
from the node (`anc` is the node's DOM ancestor chain, which the
`OcxChildElement` constructor consults for cardinality and choice); when
the node carries a `ref`, the referenced node supplies the name and type,
and the description when the node's own text is empty.  `none` models the
`AttributeError` Python raises when the reference fails to resolve
(`LxmlElement.get_name(None)`). -/
def _process_child (st : SchemaState) (xs_element : XmlNode)
    (u_tag : String) (anc : List XmlNode) : Option ChildRecord :=
  let child : ChildRecord :=
    { tag := u_tag
      name := get_name xs_element
      schema_type := get_type xs_element
      description := get_element_text xs_element
      cardinality := cardinality xs_element anc
      is_choice := is_choice anc }
  match get_reference xs_element with
  | none => some child
  | some reference =>
    match _get_element_from_type st reference with
    | none => none
    | some (tag, a) =>
      some { child with
        name := get_name a
        description :=
          if child.description = "" then get_element_text a
          else child.description
        schema_type := get_type a
        tag := tag }

/-- The member loop of `OcxSchema._process_children` (parser.py lines
355-360): each substitution-group member tag is looked up in the Raw
Element Index, processed as a child, and then given the use-site's
cardinality (`put_cardinality`) and choice flag (`put_choice`).
`memberAnc` supplies the DOM ancestor chain of each member's global
declaration (its value never reaches the output, since the use-site
override rewrites both fields that depend on it). -/
def _process_substituted (st : SchemaState) (card : Int × Bound)
    (choice : Bool) (memberAnc : String → List XmlNode) :
    List String → Option (List ChildRecord)
  | [] => some []
  | tag :: rest =>
    match _get_element st tag with
    | none => none
    | some element =>
      match _process_child st element tag (memberAnc tag) with
      | none => none
      | some sub_child =>
        match _process_substituted st card choice memberAnc rest with
        | none => none
        | some others =>
          some ({ sub_child with cardinality := card, is_choice := choice }
            :: others)

/-- The body of the site loop of `OcxSchema._process_children` (parser.py
lines 351-362) for one `xs:element` use site `e` with DOM ancestors
`eAnc`: when the site's prefixed name is a substitution-group head, the
members replace the site; otherwise the site itself becomes one child
record. -/
def _process_children_site (st : SchemaState)
    (substitutions : List (String × List String)) (target_ns : String)
    (memberAnc : String → List XmlNode) (e : XmlNode)
    (eAnc : List XmlNode) : Option (List ChildRecord) :=
  match get_name e with
  | none => none
  | some nm =>
    let name :=
      _get_prefix_from_namespace st.schema_namespaces target_ns ++ ":" ++ nm
    let u_tag := unique_tag nm target_ns
    match alist_lookup substitutions name with
    | some members =>
      _process_substituted st (cardinality e eAnc) (is_choice eAnc)
        memberAnc members
    | none =>
      match _process_child st e u_tag eAnc with
      | none => none
      | some c => some [c]

/-- The site loop of `OcxSchema._process_children` over the `xs:element`
use sites found under the global element (each paired with its DOM
ancestor chain), concatenating each site's records in order. -/
def _process_children (st : SchemaState)
    (substitutions : List (String × List String)) (target_ns : String)
    (memberAnc : String → List XmlNode) :
    List (XmlNode × List XmlNode) → Option (List ChildRecord)
  | [] => some []
  | (e, eAnc) :: rest =>
    match _process_children_site st substitutions target_ns memberAnc
        e eAnc with
    | none => none
    | some recs =>
      match _process_children st substitutions target_ns memberAnc rest with
      | none => none
      | some more => some (recs ++ more)

/-- The fields of `OcxAttribute` (elements.py) that
`OcxSchema._process_attribute` fills in (the enumerator bookkeeping
touches separate state and is not modelled). -/
structure AttributeRecord : Type where
  name : Option String
  schema_type : Option String
  att_use : String
  att_default : Option String
  att_fixed : Option String
  description : String
deriving DecidableEq

/-- `OcxSchema._process_attribute` (parser.py): build the `OcxAttribute`
from the use site (`use`, `default`, `fixed`, text all from the site);
when the site carries a `ref`, the referenced global attribute supplies
the name and type, and the description when the site's own text is empty.
`none` models the raise on a reference that fails to resolve. -/
def _process_attribute (st : SchemaState) (xs_attribute : XmlNode) :
    Option AttributeRecord :=
  let attr0 : AttributeRecord :=
    { name := get_name xs_attribute
      schema_type := get_type xs_attribute
      att_use := get_use xs_attribute
      att_default := getAttr xs_attribute "default"
      att_fixed := getAttr xs_attribute "fixed"
      description := get_element_text xs_attribute }
  match get_reference xs_attribute with
  | none => some attr0
  | some reference =>
    match _get_element_from_type st reference with
    | none => none
    | some (_, a) =>
      some { attr0 with
        name := get_name a
        description :=
          if attr0.description = "" then get_element_text a
          else attr0.description
        schema_type := get_type a }

/-- The fields of the `OcxSchemaChild` data class that
`Transformer._process_children` (transformer.py) fills in. -/
structure TChildRecord : Type where
  name : Option String
  ns_pre : String
  schema_type : Option String
  att_use : String
  description : String
  cardinality : String
  is_choice : Bool
deriving DecidableEq

/-- `Transformer._process_child` (transformer.py): like the parser's
`_process_child` but the cardinality is kept as the formatted string and
`use` is derived from the lower bound.  The reference lookup goes through
`OcxParser.get_element_from_type`, which behaves as
`_get_element_from_type`. -/
def transformer_process_child (st : SchemaState) (xs_element : XmlNode)
    (pre : String) (anc : List XmlNode) : Option TChildRecord :=
  let child : TChildRecord :=
    { name := get_name xs_element
      ns_pre := pre
      schema_type := get_type xs_element
      att_use := if (cardinality xs_element anc).1 = 0 then "opt." else "req."
      description := get_element_text xs_element
      cardinality := cardinality_string xs_element anc
      is_choice := is_choice anc }
  match get_reference xs_element with
  | none => some child
  | some reference =>
    match _get_element_from_type st reference with
    | none => none
    | some (_, a) =>
      some { child with
        name := get_name a
        description :=
          if child.description = "" then get_element_text a
          else child.description
        schema_type := get_type a }

/-- The member loop of `Transformer._process_children` (transformer.py
lines 433-442): each member is processed and then overwritten with its own
name, type and description and with the use-site's cardinality string and
choice flag. -/
def transformer_process_members (st : SchemaState) (pre : String)
    (card : String) (choice : Bool) (memberAnc : String → List XmlNode) :
    List String → Option (List TChildRecord)
  | [] => some []
  | tag :: rest =>
    match _get_element st tag with
    | none => none
    | some element =>
      match transformer_process_child st element pre (memberAnc tag) with
      | none => none
      | some subst0 =>
        match transformer_process_members st pre card choice memberAnc
            rest with
        | none => none
        | some others =>
          some ({ subst0 with
            name := get_name element
            schema_type := get_type element
            description := get_element_text element
            cardinality := card
            is_choice := choice } :: others)

/-- The body of the site loop of `Transformer._process_children`
(transformer.py lines 426-445) for one use site.  The use-site record
`child` is built first (lines 429-431).  The `else:` on line 443 is
indented to the `for` of line 433, not to the `if` of line 432: it is a
Python `for/else`, and since the loop body contains no `break` the `else`
suite runs after every completed member loop, appending the use-site
record `child` after the member records.  Because the only `add_child`
calls sit inside that `if name in substitutions:` block, a site whose
name is not a substitution head adds nothing at all. -/
def transformer_process_children_site (st : SchemaState)
    (substitutions : List (String × List String)) (target_ns : String)
    (memberAnc : String → List XmlNode) (e : XmlNode)
    (eAnc : List XmlNode) : Option (List TChildRecord) :=
  match get_name e with
  | none => none
  | some nm =>
    let pre := get_prefix_from_namespace st.schema_namespaces target_ns
    let name := pre ++ ":" ++ nm
    match transformer_process_child st e pre eAnc with
    | none => none
    | some child0 =>
      let child := { child0 with
        cardinality := cardinality_string e eAnc
        is_choice := is_choice eAnc }
      match alist_lookup substitutions name with
      | some members =>
        match transformer_process_members st pre child.cardinality
            child.is_choice memberAnc members with
        | none => none
        | some recs => some (recs ++ [child])
      | none => some []

/-- `OcxSchema._add_namespace` / `OcxParser._add_namespace`: every prefix
already registered is deleted from the incoming mapping itself, then the
remainder is merged after the registry, and the size difference is
returned.  The result triple is (new registry, incoming mapping after the
deletions - the caller's mutated dictionary, returned count). -/
def _add_namespace (registry incoming : List (String × String)) :
    List (String × String) × List (String × String) × Int :=
  let incoming2 :=
    incoming.filter (fun kv => (alist_lookup registry kv.1).isNone)
  let merged := registry ++ incoming2
  (merged, incoming2, (merged.length : Int) - (registry.length : Int))

/-- A concrete namespace URI used by the concrete instances below. -/
def exNs : String := "http://example.org/ocx"

/-- A concrete raw node: a global `xs:element` named `A`. -/
def nodeA : XmlNode := .mk "element" exNs [("name", "A")] "" []

/-- A second concrete raw node with the same name but a different
construct kind, so it is distinguishable from `nodeA`. -/
def nodeB : XmlNode := .mk "complexType" exNs [("name", "A")] "" []

/-- A concrete node carrying both a `type` and a `ref` attribute. -/
def nodeTypeRef : XmlNode :=
  .mk "element" exNs [("type", "ocx:A"), ("ref", "ocx:B")] "" []

/-- A concrete `xs:choice` wrapper node with `minOccurs="0"`. -/
def choiceWrap : XmlNode := .mk "choice" exNs [("minOccurs", "0")] "" []

/-- A concrete plain `xs:element` node with neither occurrence attribute
nor `use`. -/
def plainElement : XmlNode := .mk "element" exNs [("name", "E")] "" []

/-- A concrete `xs:attribute` use site with `use="req"`. -/
def nodeUseReq : XmlNode := .mk "attribute" exNs [("use", "req")] "" []

/-- The element-level lower-bound default exactly as claim C7 words it:
1 when `use` is absent, 1 when `use="required"`, 0 for any other `use`
value. -/
def claimedDefaultLower (e : XmlNode) : Int :=
  match getAttr e "use" with
  | none => 1
  | some use => if use = "required" then 1 else 0

/-- The W3C schema namespace URI. -/
def xsNs : String := "http://www.w3.org/2001/XMLSchema"

/-- Concrete global element `A` whose `type` attribute names `ocx:B`. -/
def elemA : XmlNode :=
  .mk "element" exNs [("name", "A"), ("type", "ocx:B")] "" []

/-- Concrete complex type `B` whose `base` attribute names `ocx:C`. -/
def elemB : XmlNode :=
  .mk "complexType" exNs [("name", "B"), ("base", "ocx:C")] "" []

/-- Concrete complex type `C` with no resolvable type. -/
def elemC : XmlNode := .mk "complexType" exNs [("name", "C")] "" []

/-- A concrete parser state: prefixes `ocx` and `xs`, the three-element
chain `A -> B -> C` in the Raw Element Index, and `xs:string` in the
Builtin Type Table. -/
def stChain : SchemaState :=
  ⟨[("ocx", exNs), ("xs", xsNs)],
   [(unique_tag "A" exNs, elemA), (unique_tag "B" exNs, elemB),
    (unique_tag "C" exNs, elemC)],
   [unique_tag "string" xsNs]⟩

/-- Concrete globally-declared attribute `ShipName` with a description. -/
def attrGlobal : XmlNode :=
  .mk "attribute" exNs [("name", "ShipName"), ("type", "xs:string")]
    "The ship name" []

/-- Concrete state indexing the global `ShipName` attribute. -/
def stAttr : SchemaState :=
  ⟨[("ocx", exNs)], [(unique_tag "ShipName" exNs, attrGlobal)], []⟩

/-- Concrete `xs:attribute` use site referencing `ocx:ShipName` with its
own `use`, `default` and `fixed` values and no description. -/
def attrSite : XmlNode :=
  .mk "attribute" exNs
    [("ref", "ocx:ShipName"), ("use", "required"), ("default", "Unknown"),
     ("fixed", "F")] "" []

/-- Concrete abstract head element `G`, declared globally. -/
def headG : XmlNode :=
  .mk "element" exNs
    [("name", "G"), ("type", "ocx:GType"), ("abstract", "true")] "" []

/-- Concrete substitution-group member `M1` with its own type and text. -/
def memberM1 : XmlNode :=
  .mk "element" exNs [("name", "M1"), ("type", "ocx:T1")] "Member one" []

/-- Concrete state indexing the head `G` and the member `M1`. -/
def stSub : SchemaState :=
  ⟨[("ocx", exNs)],
   [(unique_tag "G" exNs, headG), (unique_tag "M1" exNs, memberM1)], []⟩

/-- Concrete Substitution Group Index: `ocx:G` has the single member
`M1`. -/
def subsG : List (String × List String) :=
  [("ocx:G", [unique_tag "M1" exNs])]

/-- Concrete use site referencing the head `G`. -/
def siteG : XmlNode := .mk "element" exNs [("ref", "ocx:G")] "" []

/-- Concrete `xs:choice` wrapper with cardinality (0, unbounded). -/
def choiceUnbounded : XmlNode :=
  .mk "choice" exNs [("minOccurs", "0"), ("maxOccurs", "unbounded")] "" []

lemma alist_lookup_append {α : Type} (a b : List (String × α)) (k : String) :
    alist_lookup (a ++ b) k =
      match alist_lookup a k with
      | some v => some v
      | none => alist_lookup b k := by
  induction a with
  | nil => simp [alist_lookup]
  | cons hd tl ih =>
    obtain ⟨hk, hv⟩ := hd
    by_cases h : k = hk <;> simp [alist_lookup, h, ih]

lemma alist_lookup_insert {α : Type} (d : List (String × α)) (k : String)
    (v : α) (key : String) :
    alist_lookup (alist_insert d k v) key =
      if key = k then some v else alist_lookup d key := by
  induction d with
  | nil => simp [alist_insert, alist_lookup]
  | cons hd tl ih =>
    obtain ⟨hk, hv⟩ := hd
    by_cases h1 : hk = k
    · subst h1
      by_cases h2 : key = hk <;> simp [alist_insert, alist_lookup, h2]
    · by_cases h2 : key = hk
      · subst h2
        simp [alist_insert, alist_lookup, h1, Ne.symm h1]
      · simp [alist_insert, alist_lookup, h1, h2, ih]

lemma getLast?_cons_eq {α : Type} (x : α) (l : List α) :
    (x :: l).getLast? = some (l.getLast?.getD x) := by
  induction l generalizing x with
  | nil => rfl
  | cons y ys ih => rw [List.getLast?_cons_cons, ih]; rfl

/-- C1: the claim says the Raw Element Index keeps the node of the
earliest `_add_schema_element` call per tag; the code's plain dictionary
write keeps the node of the latest call.  Registering `nodeA` and then
`nodeB` under the same tag leaves the index at `nodeB`, not `nodeA`. -/
theorem C1_counterexample :
    alist_lookup (register_schema_elements []
        [(unique_tag "A" exNs, nodeA), (unique_tag "A" exNs, nodeB)])
      (unique_tag "A" exNs) = some nodeB
    ∧ nodeB ≠ nodeA
    ∧ alist_lookup (register_schema_elements []
        [(unique_tag "A" exNs, nodeA), (unique_tag "A" exNs, nodeB)])
      (unique_tag "A" exNs) ≠ some nodeA := by
  have h1 : alist_lookup (register_schema_elements []
      [(unique_tag "A" exNs, nodeA), (unique_tag "A" exNs, nodeB)])
      (unique_tag "A" exNs) = some nodeB := rfl
  have hne : nodeB ≠ nodeA := by simp [nodeA, nodeB]
  exact ⟨h1, hne, fun h => hne (Option.some.inj (h1.symm.trans h))⟩

/-- C1 (amended): after any sequence of `_add_schema_element` calls, each
tag maps to the node supplied by the latest call with that tag
(last-registered wins); a tag no call mentions keeps its prior entry. -/
theorem C1_last_registered_wins (table : List (String × XmlNode))
    (calls : List (String × XmlNode)) (t : String) :
    alist_lookup (register_schema_elements table calls) t =
      match (calls.filter (fun c => c.1 == t)).getLast? with
      | some c => some c.2
      | none => alist_lookup table t := by
  induction calls generalizing table with
  | nil => rfl
  | cons c rest ih =>
    obtain ⟨tag, e⟩ := c
    show alist_lookup
      (register_schema_elements (alist_insert table tag e) rest) t = _
    rw [ih]
    by_cases h : tag = t
    · subst h
      cases hfl : ((rest.filter (fun c => c.1 == tag)).getLast?) with
      | some c2 =>
        simp [List.filter, hfl, getLast?_cons_eq]
      | none =>
        simp [List.filter, hfl, getLast?_cons_eq, alist_lookup_insert]
    · have hb : ((tag, e).1 == t) = false := by
        simp [h]
      simp [List.filter, hb, alist_lookup_insert, Ne.symm h]

/-- C1 (amended) witness at a concrete input: with one prior entry and a
duplicate registration, the lookup follows the last call. -/
theorem C1_last_registered_wins_witness :
    alist_lookup (register_schema_elements []
        [(unique_tag "A" exNs, nodeA), (unique_tag "A" exNs, nodeB)])
      (unique_tag "A" exNs) = some nodeB := by
  rw [C1_last_registered_wins [] [(unique_tag "A" exNs, nodeA),
    (unique_tag "A" exNs, nodeB)] (unique_tag "A" exNs)]
  rfl

/-- C2: the claim says a node carrying both a `type=` and a `ref=`
attribute resolves to the `type=` value; `SchemaHelper.get_type` assigns
`ref` after `type`, so the node resolves to the `ref=` value instead. -/
theorem C2_counterexample :
    get_type nodeTypeRef = some "ocx:B"
    ∧ get_type nodeTypeRef ≠ some "ocx:A" := by
  refine ⟨rfl, fun h => ?_⟩
  have h2 : ("ocx:B" : String) = "ocx:A" :=
    Option.some.inj ((rfl : get_type nodeTypeRef = some "ocx:B").symm.trans h)
  exact absurd h2 (by decide)

lemma attr_isSome_of_head (root : XmlNode) (n a : String) (b : XmlNode)
    (h : (find_all_children_with_name_and_attribute root n a).head?
      = some b) :
    (getAttr b a).isSome := by
  have hb : b ∈ find_all_children_with_name_and_attribute root n a := by
    cases hl : find_all_children_with_name_and_attribute root n a with
    | nil =>
      rw [hl] at h
      simp [List.head?] at h
    | cons x xs =>
      rw [hl] at h
      simp only [List.head?] at h
      cases Option.some.inj h
      exact List.mem_cons_self _ _
  have hcond := (List.mem_filter.mp hb).2
  simp only [Bool.and_eq_true, beq_iff_eq] at hcond
  exact hcond.2

lemma seg_overrideWith (root : XmlNode) (prior : Option String) :
    (match (find_all_children_with_name_and_attribute root
        "restriction" "base").head? with
     | some b => getAttr b "base"
     | none =>
       match (find_all_children_with_name_and_attribute root
           "extension" "base").head? with
       | some b => getAttr b "base"
       | none => prior) =
    overrideWith prior
      (match (find_all_children_with_name_and_attribute root
          "restriction" "base").head? with
       | some b => getAttr b "base"
       | none =>
         match (find_all_children_with_name_and_attribute root
             "extension" "base").head? with
         | some b => getAttr b "base"
         | none => none) := by
  cases hr : (find_all_children_with_name_and_attribute root
      "restriction" "base").head? with
  | some b =>
    obtain ⟨v, hv⟩ := Option.isSome_iff_exists.mp
      (attr_isSome_of_head root "restriction" "base" b hr)
    simp [overrideWith, hv]
  | none =>
    cases he : (find_all_children_with_name_and_attribute root
        "extension" "base").head? with
    | some b =>
      obtain ⟨v, hv⟩ := Option.isSome_iff_exists.mp
        (attr_isSome_of_head root "extension" "base" b he)
      simp [overrideWith, hv]
    | none => simp [overrideWith]

/-- C2 (amended): for every node, `get_type` equals the fold of the
seven source values - `type` attribute, `base` attribute, `ref`
attribute, complexContent base, simpleType base, list marker,
restriction marker, in the code's assignment order - where each later
matching source overwrites the earlier ones, so the LAST matching
source wins; in particular a node carrying both a `type=` and a `ref=`
attribute resolves to the `ref=` value. -/
theorem C2_last_match_wins (e : XmlNode) :
    get_type e =
      [src_type e, src_base e, src_ref e, src_complexContent e,
       src_simpleType e, src_list e, src_restriction e].foldl
        overrideWith none := by
  have hattr :
      (match getAttr e "ref" with
       | some t => some t
       | none =>
         match getAttr e "base" with
         | some t => some t
         | none =>
           match getAttr e "type" with
           | some t => some t
           | none => none) =
      overrideWith (overrideWith (overrideWith none (src_type e))
        (src_base e)) (src_ref e) := by
    simp only [src_type, src_base, src_ref]
    cases getAttr e "ref" <;> cases getAttr e "base" <;>
      cases getAttr e "type" <;> rfl
  have hcc : ∀ prior : Option String,
      (if (find_all_children_with_name e "complexContent").length > 0 then
        match (find_all_children_with_name_and_attribute e
            "restriction" "base").head? with
        | some b => getAttr b "base"
        | none =>
          match (find_all_children_with_name_and_attribute e
              "extension" "base").head? with
          | some b => getAttr b "base"
          | none => prior
      else prior) = overrideWith prior (src_complexContent e) := by
    intro prior
    by_cases hlen :
        (find_all_children_with_name e "complexContent").length > 0
    · simp only [src_complexContent, if_pos hlen]
      exact seg_overrideWith e prior
    · simp only [src_complexContent, if_neg hlen, overrideWith]
  have hst : ∀ prior : Option String,
      (match (find_all_children_with_name e "simpleType").head? with
       | some simple_type =>
         match (find_all_children_with_name_and_attribute simple_type
             "restriction" "base").head? with
         | some b => getAttr b "base"
         | none =>
           match (find_all_children_with_name_and_attribute simple_type
               "extension" "base").head? with
           | some b => getAttr b "base"
           | none => prior
       | none => prior) = overrideWith prior (src_simpleType e) := by
    intro prior
    cases hh : (find_all_children_with_name e "simpleType").head? with
    | some stv =>
      simp only [src_simpleType, hh]
      exact seg_overrideWith stv prior
    | none => simp only [src_simpleType, hh, overrideWith]
  have hli : ∀ prior : Option String,
      (match (iterTag e "list").getLast? with
       | some item =>
         some ("List of type " ++ optStr (getAttr item "itemType"))
       | none => prior) = overrideWith prior (src_list e) := by
    intro prior
    cases h : (iterTag e "list").getLast? <;>
      simp [src_list, h, overrideWith]
  have hre : ∀ prior : Option String,
      (match (iterTag e "restriction").getLast? with
       | some item =>
         some ("Restriction of type " ++ optStr (getAttr item "base"))
       | none => prior) = overrideWith prior (src_restriction e) := by
    intro prior
    cases h : (iterTag e "restriction").getLast? <;>
      simp [src_restriction, h, overrideWith]
  simp only [get_type]
  rw [hattr, hcc, hst, hli, hre]
  rfl

/-- C2 (amended) witness: on the concrete node carrying both `type` and
`ref`, the seven-source fold applies and evaluates to the `ref` value. -/
theorem C2_last_match_wins_witness :
    get_type nodeTypeRef =
      [src_type nodeTypeRef, src_base nodeTypeRef, src_ref nodeTypeRef,
       src_complexContent nodeTypeRef, src_simpleType nodeTypeRef,
       src_list nodeTypeRef, src_restriction nodeTypeRef].foldl
        overrideWith none
    ∧ get_type nodeTypeRef = some "ocx:B" := by
  have h := C2_last_match_wins nodeTypeRef
  exact ⟨h, h.trans (by rfl)⟩

/-- C9: registering an incoming prefix-to-URI mapping never changes the
URI bound to an already-registered prefix (the old binding wins), and the
returned count is exactly the number of incoming prefixes that were not
previously registered. -/
theorem C9_register_preserves_and_counts
    (registry incoming : List (String × String)) :
    (∀ p u, alist_lookup registry p = some u →
      alist_lookup (_add_namespace registry incoming).1 p = some u)
    ∧ (_add_namespace registry incoming).2.2 =
      ((incoming.filter
        (fun kv => (alist_lookup registry kv.1).isNone)).length : Int) := by
  constructor
  · intro p u hp
    show alist_lookup (registry ++ _) p = some u
    rw [alist_lookup_append, hp]
  · show ((registry ++ _).length : Int) - (registry.length : Int) = _
    rw [List.length_append]
    push_cast
    ring

/-- C9 witness: the pre-seeded `xml` prefix keeps its URI against an
incoming rebinding, and the count reports only the genuinely new prefix. -/
theorem C9_register_preserves_and_counts_witness :
    alist_lookup (_add_namespace
        [("xml", "http://www.w3.org/XML/1998/namespace")]
        [("xml", "http://evil.example"), ("ocx", exNs)]).1 "xml"
      = some "http://www.w3.org/XML/1998/namespace"
    ∧ (_add_namespace
        [("xml", "http://www.w3.org/XML/1998/namespace")]
        [("xml", "http://evil.example"), ("ocx", exNs)]).2.2 = 1 := by
  have h := C9_register_preserves_and_counts
    [("xml", "http://www.w3.org/XML/1998/namespace")]
    [("xml", "http://evil.example"), ("ocx", exNs)]
  exact ⟨h.1 "xml" "http://www.w3.org/XML/1998/namespace" rfl,
    h.2.trans (by rfl)⟩

/-- C10: `_add_namespace` deletes every already-registered prefix from the
caller-supplied mapping itself, so after the call the argument contains
exactly the entries whose prefix was not previously registered. -/
theorem C10_argument_mutated (registry incoming : List (String × String)) :
    (∀ kv ∈ (_add_namespace registry incoming).2.1,
      alist_lookup registry kv.1 = none)
    ∧ (∀ kv ∈ incoming, alist_lookup registry kv.1 = none →
      kv ∈ (_add_namespace registry incoming).2.1) := by
  constructor
  · intro kv hkv
    have h := (List.mem_filter.mp hkv).2
    simpa [Option.isNone_iff_eq_none] using h
  · intro kv hkv hnone
    exact List.mem_filter.mpr ⟨hkv, by simp [hnone]⟩

/-- C10 witness: the colliding `xml` entry is gone from the mutated
argument while the new `ocx` entry remains. -/
theorem C10_argument_mutated_witness :
    alist_lookup [("xml", "http://www.w3.org/XML/1998/namespace")]
      (("ocx", exNs) : String × String).1 = none
    ∧ ("ocx", exNs) ∈ (_add_namespace
        [("xml", "http://www.w3.org/XML/1998/namespace")]
        [("xml", "http://evil.example"), ("ocx", exNs)]).2.1
    ∧ ∀ kv ∈ (_add_namespace
        [("xml", "http://www.w3.org/XML/1998/namespace")]
        [("xml", "http://evil.example"), ("ocx", exNs)]).2.1,
      alist_lookup [("xml", "http://www.w3.org/XML/1998/namespace")]
        kv.1 = none := by
  have h := C10_argument_mutated
    [("xml", "http://www.w3.org/XML/1998/namespace")]
    [("xml", "http://evil.example"), ("ocx", exNs)]
  exact ⟨rfl, h.2 ("ocx", exNs) (by simp) rfl, h.1⟩

lemma find?_prefix_none {p : XmlNode → Bool} {pre : List XmlNode}
    (w : XmlNode) (post : List XmlNode)
    (hpre : ∀ a ∈ pre, p a = false) (hw : p w = true) :
    (pre ++ w :: post).find? p = some w := by
  induction pre with
  | nil => simp [List.find?, hw]
  | cons a tl ih =>
    have ha := hpre a (List.mem_cons_self a tl)
    simp only [List.cons_append, List.find?, ha]
    exact ih (fun x hx => hpre x (List.mem_cons_of_mem a hx))

/-- C6: the cardinality algorithm consults only the nearest enclosing
`xs:sequence`/`xs:choice` DOM ancestor - everything past it is ignored -
and that wrapper's own `minOccurs`/`maxOccurs`, when present, override the
element-level bounds, while `is_choice` is true exactly when the nearest
wrapper is an `xs:choice`. -/
theorem C6_nearest_wrapper_only (e : XmlNode) (pre post : List XmlNode)
    (w : XmlNode) (hpre : ∀ a ∈ pre, isWrapper a = false)
    (hw : isWrapper w = true) :
    cardinality e (pre ++ w :: post) = cardinality e [w]
    ∧ (cardinality e (pre ++ w :: post)).1 =
      (match getAttr w "minOccurs" with
       | some m => pyInt m
       | none => (cardinality e []).1)
    ∧ (cardinality e (pre ++ w :: post)).2 =
      (match getAttr w "maxOccurs" with
       | some m => Bound.ofStr m
       | none => (cardinality e []).2)
    ∧ is_choice (pre ++ w :: post) = decide (w.localname = "choice") := by
  have hfind : (pre ++ w :: post).find? isWrapper = some w :=
    find?_prefix_none w post hpre hw
  have hone : ([w]).find? isWrapper = some w := by
    simp [List.find?, hw]
  have hnil : ([] : List XmlNode).find? isWrapper = none := rfl
  refine ⟨?_, ?_, ?_, ?_⟩
  · simp only [cardinality, hfind, hone]
  · simp only [cardinality, hfind, hnil]
  · simp only [cardinality, hfind, hnil]
  · simp only [is_choice, hfind]

/-- C6 witness: an element wrapped directly in an `xs:choice` carrying
`minOccurs="0"` resolves to lower bound 0 with `is_choice` true. -/
theorem C6_nearest_wrapper_only_witness :
    cardinality plainElement ([] ++ choiceWrap :: []) =
      cardinality plainElement [choiceWrap]
    ∧ (cardinality plainElement ([] ++ choiceWrap :: [])).1 = 0
    ∧ is_choice ([] ++ choiceWrap :: []) = true := by
  have h := C6_nearest_wrapper_only plainElement [] [] choiceWrap
    (fun a ha => absurd ha (List.not_mem_nil a)) rfl
  refine ⟨h.1, ?_, ?_⟩
  · rw [h.2.1]
    rfl
  · rw [h.2.2.2]
    rfl

/-- C7: the claim says the lower bound defaults to 0 for any `use` value
other than `required`; the code also returns 1 for `use="req"`, so on a
node with `use="req"` the computed lower bound differs from the claimed
default. -/
theorem C7_counterexample :
    (cardinality nodeUseReq []).1 = 1
    ∧ claimedDefaultLower nodeUseReq = 0
    ∧ (cardinality nodeUseReq []).1 ≠ claimedDefaultLower nodeUseReq := by
  exact ⟨rfl, rfl, by decide⟩

/-- C7 (amended): a node with neither `minOccurs` nor `maxOccurs` and no
`xs:sequence`/`xs:choice` ancestor resolves to upper bound 1 and
`is_choice` false, with the lower bound 1 when `use` is absent or equal
to `required` or `req`, and 0 for any other `use` value; in particular,
with no `use` attribute the cardinality is (1, 1). -/
theorem C7_cardinality_defaults (e : XmlNode) (anc : List XmlNode)
    (hmin : getAttr e "minOccurs" = none)
    (hmax : getAttr e "maxOccurs" = none)
    (hanc : ∀ a ∈ anc, isWrapper a = false) :
    cardinality e anc =
      ((match getAttr e "use" with
        | some use => if use = "req" ∨ use = "required" then 1 else 0
        | none => 1), Bound.ofInt 1)
    ∧ is_choice anc = false := by
  have hfind : anc.find? isWrapper = none :=
    List.find?_eq_none.mpr (fun x hx => by simp [hanc x hx])
  constructor
  · simp only [cardinality, hfind, hmin, hmax]
  · simp only [is_choice, hfind]

/-- C7 (amended) witness: the headline default - no occurrence
attributes, no `use`, no wrapper - gives cardinality (1, 1) and
`is_choice` false. -/
theorem C7_cardinality_defaults_witness :
    cardinality plainElement [] = (1, Bound.ofInt 1)
    ∧ is_choice [] = false := by
  have h := C7_cardinality_defaults plainElement [] rfl rfl
    (fun a ha => absurd ha (List.not_mem_nil a))
  exact ⟨h.1.trans (by rfl), h.2⟩

/-- C4: when the resolved type chain from `A` reaches `B`, then `C`, and
stops there, `_find_parents` computes the same parent list for every
sufficient fuel (so the Python recursion terminates) and that list is
`[B, C]`, nearest parent first. -/
theorem C4_find_ancestors (st : SchemaState) (tagA0 tagB0 tagC0 : String)
    (elemB0 elemC0 : XmlNode)
    (hAB : resolveParent st tagA0 = some (tagB0, elemB0))
    (hBC : resolveParent st tagB0 = some (tagC0, elemC0))
    (hC : resolveParent st tagC0 = none)
    (hne : tagB0 ≠ tagC0) :
    ∀ k : Nat, _find_parents st (k + 3) tagA0 [] =
      [(tagB0, elemB0), (tagC0, elemC0)] := by
  intro k
  have h1 : _find_parents st (k + 2 + 1) tagA0 [] =
      _find_parents st (k + 2) tagB0 [(tagB0, elemB0)] := by
    simp only [_find_parents, hAB, alist_insert]
  have h2 : _find_parents st (k + 1 + 1) tagB0 [(tagB0, elemB0)] =
      _find_parents st (k + 1) tagC0 [(tagB0, elemB0), (tagC0, elemC0)] := by
    simp only [_find_parents, hBC, alist_insert, if_neg hne]
  have h3 : _find_parents st (k + 1) tagC0
      [(tagB0, elemB0), (tagC0, elemC0)] =
      [(tagB0, elemB0), (tagC0, elemC0)] := by
    simp only [_find_parents, hC]
  exact h1.trans (h2.trans h3)

/-- C4 witness: on the concrete chain state the hypotheses hold by
evaluation and the walk yields `[B, C]` for any sufficient fuel. -/
theorem C4_find_ancestors_witness :
    resolveParent stChain (unique_tag "A" exNs) =
      some (unique_tag "B" exNs, elemB)
    ∧ _find_parents stChain 3 (unique_tag "A" exNs) [] =
      [(unique_tag "B" exNs, elemB), (unique_tag "C" exNs, elemC)]
    ∧ _find_parents stChain 10 (unique_tag "A" exNs) [] =
      [(unique_tag "B" exNs, elemB), (unique_tag "C" exNs, elemC)] := by
  have h := C4_find_ancestors stChain (unique_tag "A" exNs)
    (unique_tag "B" exNs) (unique_tag "C" exNs) elemB elemC
    rfl rfl rfl (by decide)
  exact ⟨rfl, h 0, h 7⟩

/-- C5: `_get_element_from_type` is a total function of the reference
string (so it never raises); it returns the `(none, none)` result when
the reference has no registered prefix, when the resolved tag is a
builtin type (and then the result does not depend on the Raw Element
Index at all), and when the tag is absent from the Raw Element Index;
and no tag that `_find_parents` records as a parent is a builtin type. -/
theorem C5_type_lookup_terminals (st : SchemaState) (s : String) :
    (qnamePre s = none → _get_element_from_type st s = none)
    ∧ (∀ p, qnamePre s = some p →
        alist_lookup st.schema_namespaces p = none →
        _get_element_from_type st s = none)
    ∧ (∀ p nsu, qnamePre s = some p →
        alist_lookup st.schema_namespaces p = some nsu →
        unique_tag (qnameLocal s) nsu ∈ st.builtin_xs_types →
        ∀ idx : List (String × XmlNode),
          _get_element_from_type
            ⟨st.schema_namespaces, idx, st.builtin_xs_types⟩ s = none)
    ∧ (∀ p nsu, qnamePre s = some p →
        alist_lookup st.schema_namespaces p = some nsu →
        unique_tag (qnameLocal s) nsu ∉ st.builtin_xs_types →
        alist_lookup st.all_schema_elements
          (unique_tag (qnameLocal s) nsu) = none →
        _get_element_from_type st s = none)
    ∧ (∀ fuel tag, ∀ kv ∈ _find_parents st fuel tag [],
        kv.1 ∉ st.builtin_xs_types) := by
  have hresolve : ∀ pt pe t, resolveParent st t = some (pt, pe) →
      pt ∉ st.builtin_xs_types := by
    intro pt pe t h
    cases hel : _get_element st t with
    | none => simp [resolveParent, hel] at h
    | some e =>
      simp only [resolveParent, hel] at h
      cases hty : get_type e with
      | none => simp [hty] at h
      | some ty =>
        simp only [hty] at h
        cases hp : qnamePre ty with
        | none => simp [_get_element_from_type, hp] at h
        | some p =>
          simp only [_get_element_from_type, hp] at h
          cases hn : alist_lookup st.schema_namespaces p with
          | none => simp [hn] at h
          | some nsu =>
            simp only [hn] at h
            by_cases hb : unique_tag (qnameLocal ty) nsu ∈ st.builtin_xs_types
            · simp [if_pos hb] at h
            · simp only [if_neg hb] at h
              cases hx : alist_lookup st.all_schema_elements
                  (unique_tag (qnameLocal ty) nsu) with
              | none => simp [hx] at h
              | some e2 =>
                simp only [hx, Option.some.injEq, Prod.mk.injEq] at h
                exact h.1 ▸ hb
  have hinsert : ∀ (d : List (String × XmlNode)) k v,
      (∀ kv ∈ d, kv.1 ∉ st.builtin_xs_types) →
      k ∉ st.builtin_xs_types →
      ∀ kv ∈ alist_insert d k v, kv.1 ∉ st.builtin_xs_types := by
    intro d k v hd hk
    induction d with
    | nil =>
      intro kv hkv
      simp only [alist_insert, List.mem_singleton] at hkv
      subst hkv; exact hk
    | cons hd0 tl ih =>
      intro kv hkv
      obtain ⟨k0, v0⟩ := hd0
      by_cases h0 : k0 = k
      · simp only [alist_insert, if_pos h0] at hkv
        rcases List.mem_cons.mp hkv with h | h
        · subst h; exact h0 ▸ hk
        · exact hd kv (List.mem_cons_of_mem _ h)
      · simp only [alist_insert, if_neg h0] at hkv
        rcases List.mem_cons.mp hkv with h | h
        · subst h; exact hd (k0, v0) (List.mem_cons_self _ _)
        · exact ih (fun kv2 hkv2 => hd kv2 (List.mem_cons_of_mem _ hkv2))
            kv h
  have hwalk : ∀ fuel tag acc,
      (∀ kv ∈ acc, kv.1 ∉ st.builtin_xs_types) →
      ∀ kv ∈ _find_parents st fuel tag acc,
        kv.1 ∉ st.builtin_xs_types := by
    intro fuel
    induction fuel with
    | zero => intro tag acc hacc; exact hacc
    | succ f ih =>
      intro tag acc hacc kv hkv
      rw [show f + 1 = f + 1 from rfl] at hkv
      simp only [_find_parents] at hkv
      cases hres : resolveParent st tag with
      | none => rw [hres] at hkv; exact hacc kv hkv
      | some pp =>
        obtain ⟨pt, pe⟩ := pp
        rw [hres] at hkv
        exact ih pt (alist_insert acc pt pe)
          (hinsert acc pt pe hacc (hresolve pt pe tag hres)) kv hkv
  refine ⟨?_, ?_, ?_, ?_, ?_⟩
  · intro hp
    simp only [_get_element_from_type, hp]
  · intro p hp hn
    simp only [_get_element_from_type, hp, hn]
  · intro p nsu hp hn hb idx
    simp only [_get_element_from_type, hp, hn, if_pos hb]
  · intro p nsu hp hn hb hx
    simp only [_get_element_from_type, hp, hn, if_neg hb, hx]
  · intro fuel tag kv hkv
    exact hwalk fuel tag [] (fun kv2 hkv2 => absurd hkv2 (List.not_mem_nil _))
      kv hkv

/-- C5 witness: on the concrete chain state, an unknown prefix, the
builtin `xs:string` (with the index swapped out arbitrarily) and an
unindexed tag each yield the `(none, none)` result, and the recorded
parent `B` of `A` is not a builtin type. -/
theorem C5_type_lookup_terminals_witness :
    _get_element_from_type stChain "NoColonName" = none
    ∧ _get_element_from_type stChain "zz:Foo" = none
    ∧ _get_element_from_type stChain "xs:string" = none
    ∧ _get_element_from_type
        ⟨stChain.schema_namespaces, [], stChain.builtin_xs_types⟩
        "xs:string" = none
    ∧ _get_element_from_type stChain "ocx:Missing" = none
    ∧ (unique_tag "B" exNs) ∉ stChain.builtin_xs_types := by
  have h := C5_type_lookup_terminals stChain
  refine ⟨(h "NoColonName").1 rfl, (h "zz:Foo").2.1 "zz" rfl rfl, ?_, ?_, ?_, ?_⟩
  · exact (h "xs:string").2.2.1 "xs" xsNs rfl rfl (by decide)
      stChain.all_schema_elements
  · exact (h "xs:string").2.2.1 "xs" xsNs rfl rfl (by decide) []
  · exact (h "ocx:Missing").2.2.2.1 "ocx" exNs rfl rfl (by decide) rfl
  · exact (h "dummy").2.2.2.2 3 (unique_tag "A" exNs)
      (unique_tag "B" exNs, elemB)
      (by rw [show _find_parents stChain 3 (unique_tag "A" exNs) [] =
          [(unique_tag "B" exNs, elemB), (unique_tag "C" exNs, elemC)]
          from rfl]
          exact List.mem_cons_self _ _)

/-- C8: when an `xs:attribute` use site carries a `ref` that resolves to
a globally-declared attribute, the produced record takes its name and
type from the referenced declaration, its description from the
referenced declaration exactly when the use site's own text is empty,
and its `use`, `default` and `fixed` values from the use site. -/
theorem C8_attribute_reference_substitution (st : SchemaState)
    (site : XmlNode) (r t : String) (a : XmlNode)
    (href : get_reference site = some r)
    (hres : _get_element_from_type st r = some (t, a)) :
    _process_attribute st site = some
      { name := get_name a
        schema_type := get_type a
        att_use := get_use site
        att_default := getAttr site "default"
        att_fixed := getAttr site "fixed"
        description :=
          if get_element_text site = "" then get_element_text a
          else get_element_text site } := by
  simp only [_process_attribute, href, hres]

/-- C8 witness: the concrete use site inherits name, type and
description from the referenced `ShipName` declaration while keeping the
use site's `use`, `default` and `fixed`. -/
theorem C8_attribute_reference_substitution_witness :
    _process_attribute stAttr attrSite = some
      { name := some "ShipName"
        schema_type := some "xs:string"
        att_use := "req."
        att_default := some "Unknown"
        att_fixed := some "F"
        description := "The ship name" } := by
  have h := C8_attribute_reference_substitution stAttr attrSite
    "ocx:ShipName" (unique_tag "ShipName" exNs) attrGlobal rfl rfl
  exact h.trans (by rfl)

/-- C3: on a use site referencing the head `ocx:G` (one member `M1`,
use-site cardinality (0, unbounded) inside an `xs:choice`), the
parser-side `OcxSchema._process_children` yields exactly the one member
record, carrying `M1`'s own name but the use-site's cardinality and
choice flag, as the claim states; the transformer-side
`Transformer._process_children`, however, appends the use-site record
for `G` itself after the member records, because the `else` of its
member loop is indented as a Python `for/else` and runs after every
completed loop, so that site yields two records and one of them is for
the head `G`. -/
theorem C3_transformer_emits_head_record :
    (_process_children_site stSub subsG exNs (fun _ => []) siteG
        [choiceUnbounded]).map
        (fun l => (l.length, l.map (fun r => r.name),
          l.map (fun r => r.cardinality), l.map (fun r => r.is_choice)))
      = some (1, [some "M1"], [((0 : Int), Bound.ofStr "unbounded")], [true])
    ∧ (transformer_process_children_site stSub subsG exNs (fun _ => [])
        siteG [choiceUnbounded]).map
        (fun l => (l.length, l.map (fun r => r.name)))
      = some (2, [some "M1", some "G"]) := by
  exact ⟨rfl, rfl⟩

/-- Parser-side substitution expansion in general (supporting lemma for
the C3 analysis): when a site's prefixed name is a registered head whose
members all resolve to reference-free indexed declarations, the site's
records are exactly one per member, each carrying the member's own name,
type and description together with the use-site's cardinality and choice
flag; no other record is produced for the site. -/
theorem process_children_site_expands_members (st : SchemaState)
    (subs : List (String × List String)) (target_ns : String)
    (memberAnc : String → List XmlNode) (e : XmlNode)
    (eAnc : List XmlNode) (nm : String) (members : List String)
    (elemOf : String → XmlNode)
    (hname : get_name e = some nm)
    (hsub : alist_lookup subs
      (_get_prefix_from_namespace st.schema_namespaces target_ns
        ++ ":" ++ nm) = some members)
    (hmem : ∀ m ∈ members, _get_element st m = some (elemOf m)
      ∧ get_reference (elemOf m) = none) :
    _process_children_site st subs target_ns memberAnc e eAnc =
      some (members.map (fun m =>
        { tag := m
          name := get_name (elemOf m)
          schema_type := get_type (elemOf m)
          description := get_element_text (elemOf m)
          cardinality := cardinality e eAnc
          is_choice := is_choice eAnc })) := by
  have haux : ∀ ms : List String,
      (∀ m ∈ ms, _get_element st m = some (elemOf m)
        ∧ get_reference (elemOf m) = none) →
      _process_substituted st (cardinality e eAnc) (is_choice eAnc)
        memberAnc ms =
        some (ms.map (fun m =>
          { tag := m
            name := get_name (elemOf m)
            schema_type := get_type (elemOf m)
            description := get_element_text (elemOf m)
            cardinality := cardinality e eAnc
            is_choice := is_choice eAnc })) := by
    intro ms
    induction ms with
    | nil => intro _; rfl
    | cons m rest ih =>
      intro hmem2
      have hm := hmem2 m (List.mem_cons_self m rest)
      simp only [_process_substituted, hm.1, _process_child, hm.2,
        List.map_cons]
      rw [ih (fun x hx => hmem2 x (List.mem_cons_of_mem m hx))]
  simp only [_process_children_site, hname, hsub]
  exact haux members hmem

end Ocx
